import Mathlib

/-!
Verification development for the referee/refy paper-recommendation engine.

The definitions below are a shallow embedding of the recommendation
aggregation pipeline of `refy/suggest.py` (class `suggest`) and of the
older variant `referee/suggest.py`.  External collaborators (the doc2vec
retriever `d2v.predict`, the corpus loader, the keyword extractor) are
modelled as explicit function parameters, following their contracts.
Python dictionaries are modelled as insertion-ordered association lists.
-/

/-- A corpus entry, as stored in the database loaded by `load_database`. -/
structure Document where
  id : Nat
  title : String
  year : Int
  abstract : String
  authors : List String
deriving Repr, DecidableEq

/-- A user library entry loaded from the .bib file by `load_user_input`:
the engine reads its `title` and `abstract` fields. -/
structure UserPaper where
  title : String
  abstract : String
deriving Repr, DecidableEq

/-! Python `dict` with `String` keys and `int` values, as an
insertion-ordered association list: lookup finds the unique binding,
update keeps the binding's position, fresh keys are appended at the end. -/

/-- Dictionary lookup: `d[k]` if present, else `none`. -/
def dget (d : List (String × Int)) (k : String) : Option Int :=
  match d with
  | [] => none
  | (k', v) :: rest => if k' = k then some v else dget rest k

/-- Dictionary lookup with a default value. -/
def dgetD (d : List (String × Int)) (k : String) (v₀ : Int) : Int :=
  (dget d k).getD v₀

/-- Dictionary update `d[k] = v`: replaces the binding in place if the key
is present, otherwise appends the new binding at the end. -/
def dinsert (k : String) (v : Int) : List (String × Int) → List (String × Int)
  | [] => [(k, v)]
  | (k', v') :: rest =>
      if k' = k then (k, v) :: rest else (k', v') :: dinsert k v rest

/-- The keys of a dictionary, in insertion order. -/
def dkeys (d : List (String × Int)) : List String :=
  d.map Prod.fst

/-! The library-query pipeline of `refy/suggest.py`, class `suggest`. -/

/-- Class constant `suggest.suggestions_per_paper = 100`: for each user
paper the retriever is asked for this many suggestions. -/
def suggestionsPerPaper : Nat := 100

/-- Line `selected = self.database.loc[self.database["id"].isin(best_IDs)]`
of `suggest.suggest_for_paper`: the database rows whose id occurs among the
retrieved ids, kept in database order (pandas `isin` selection preserves
the frame's own row order, not the order of `best_IDs`). -/
def selectedDocs (database : List Document) (retriever : String → List Nat)
    (abstract : String) : List Document :=
  database.filter (fun d => (retriever abstract).contains d.id)

/-- The dict comprehension
`{t: self.suggestions_per_paper - n for n, t in enumerate(selected.title.values)}`
of `suggest.suggest_for_paper`, unrolled as a loop over the titles with a
running index `n`: each title is assigned `suggestions_per_paper - n`
(a later duplicate title overwrites an earlier binding, as in a dict). -/
def buildWeightsFrom (n : Nat) (titles : List String)
    (d : List (String × Int)) : List (String × Int) :=
  match titles with
  | [] => d
  | t :: rest =>
      buildWeightsFrom (n + 1) rest
        (dinsert t ((suggestionsPerPaper : Int) - (n : Int)) d)

/-- Method `suggest.suggest_for_paper`: retrieve the best ids for the
paper's abstract via the doc2vec model, select the matching database rows,
and weight the selected titles by position. -/
def suggestForPaper (database : List Document) (retriever : String → List Nat)
    (abstract : String) : List (String × Int) :=
  buildWeightsFrom 0 ((selectedDocs database retriever abstract).map (fun d => d.title)) []

/-- The body of the accumulation loop in `suggest.get_suggestions`:
`points[suggested] += pts` when the title is present, else
`points[suggested] = pts`. -/
def accumStep (points : List (String × Int)) (suggested : String) (pts : Int) :
    List (String × Int) :=
  match dget points suggested with
  | some v => dinsert suggested (v + pts) points
  | none => dinsert suggested pts points

/-- The loop `for suggested, pts in paper_suggestions.items(): ...` of
`suggest.get_suggestions`, merging one paper's suggestion dict into the
running `points` dict. -/
def accumulate (points : List (String × Int))
    (paperSuggestions : List (String × Int)) : List (String × Int) :=
  paperSuggestions.foldl (fun pts tw => accumStep pts tw.1 tw.2) points

/-- The outer loop of `suggest.get_suggestions`: fold over the user papers,
accumulating every paper's `suggest_for_paper` output into one `points`
dict (the ScoreMap of the spec, before normalization). -/
def getPoints (database : List Document) (retriever : String → List Nat)
    (userPapers : List UserPaper) : List (String × Int) :=
  userPapers.foldl
    (fun pts p => accumulate pts (suggestForPaper database retriever p.abstract)) []

/-! Keyword aggregation, `suggest.get_keywords` of `refy/suggest.py`. -/

/-- The body of the inner loop of `suggest.get_keywords`:
`keywords[kw] += 10 - m` when the keyword is already present, else
`keywords[kw] = 1`. -/
def keywordStep (kws : List (String × Int)) (m : Nat) (kw : String) :
    List (String × Int) :=
  match dget kws kw with
  | some v => dinsert kw (v + ((10 : Int) - (m : Int))) kws
  | none => dinsert kw 1 kws

/-- The inner loop `for m, kw in enumerate(kwds): ...` of
`suggest.get_keywords`, with `m` the running rank of the keyword in the
document's extracted list. -/
def keywordLoop (m : Nat) (kwds : List String) (kws : List (String × Int)) :
    List (String × Int) :=
  match kwds with
  | [] => kws
  | kw :: rest => keywordLoop (m + 1) rest (keywordStep kws m kw)

/-- Method `suggest.get_keywords`: fold the per-paper keyword lists
(obtained from the external extractor `get_keywords_from_text(abstract, N=10)`)
into one keyword profile dict. -/
def getKeywords (extractor : String → List String) (userPapers : List UserPaper) :
    List (String × Int) :=
  userPapers.foldl (fun kws p => keywordLoop 0 (extractor p.abstract) kws) []

/-! The `Suggestions` wrapper used by `refy/suggest.py` lives in
`refy/suggestions.py`, which is not part of the sources here; its
operations are modelled from the spec (sections 3 and 4.2-4.4) and from the
equivalent inline pandas code of `referee/suggest.py`. -/

/-- Modelled from the spec: construction of a `Suggestions` object
deduplicates rows by title, first occurrence wins (spec section 3,
"deduplicated by title before scoring"; `referee/suggest.py` does
`drop_duplicates(subset="title")`). `seen` is the set of titles already kept. -/
def dedupByTitle (seen : List String) : List Document → List Document
  | [] => []
  | d :: rest =>
      if seen.contains d.title then dedupByTitle seen rest
      else d :: dedupByTitle (d.title :: seen) rest

/-- Modelled from the spec: `Suggestions.remove_overlap` (missing
`refy/suggestions.py`), spec section 4.2 — removes any candidate row whose
title exactly matches a title in the user library. -/
def removeOverlap (rows : List Document) (userPapers : List UserPaper) :
    List Document :=
  rows.filter (fun d => !((userPapers.map (fun p => p.title)).contains d.title))

/-- A row of the final RecommendationSet: a document together with its
normalized score (`Suggestions.set_score` attaches the score column). -/
structure SuggRow where
  doc : Document
  score : ℚ
deriving Repr, DecidableEq

/-- Modelled from the spec: one insertion step of the stable
sort-by-score-descending of spec section 4.4 (`referee/suggest.py` sorts
with `sort_values("score", ascending=False)`); a row moves before the
first row of strictly smaller score, so equal scores keep their prior
relative order. -/
def insertRow (r : SuggRow) : List SuggRow → List SuggRow
  | [] => [r]
  | x :: xs => if x.score < r.score then r :: x :: xs else x :: insertRow r xs

/-- Modelled from the spec: the Ranker's stable sort by score descending
(spec section 4.4), as an insertion sort. -/
def sortByScore (rows : List SuggRow) : List SuggRow :=
  rows.foldr insertRow []

/-- Modelled from the spec: `Suggestions.filter` (missing
`refy/suggestions.py`), spec section 4.3 — drops rows with year < since
(if given) or year > to (if given); both bounds inclusive, omitted bounds
impose no constraint (`referee/suggest.py` keeps `suggestions.year >= self.since`). -/
def yearFilter (since upto : Option Int) (rows : List SuggRow) : List SuggRow :=
  rows.filter (fun r =>
    (since.all fun s => decide (s ≤ r.doc.year)) &&
    (upto.all fun t => decide (r.doc.year ≤ t)))

/-- Method `suggest._collate_suggestions` of `refy/suggest.py`: select the
database rows whose title has points, deduplicate, drop overlap with the
user library, attach the normalized score
`points[title] / (suggestions_per_paper * n_user_papers)`, order by score,
and apply the year filter. -/
def collateSuggestions (database : List Document) (userPapers : List UserPaper)
    (points : List (String × Int)) (since upto : Option Int) : List SuggRow :=
  let sugg := dedupByTitle []
    (database.filter (fun d => (dkeys points).contains d.title))
  let sugg := removeOverlap sugg userPapers
  let maxScore : ℚ := (suggestionsPerPaper : ℚ) * (userPapers.length : ℚ)
  let scored := sugg.map
    (fun d => SuggRow.mk d (((dgetD points d.title 0 : Int) : ℚ) / maxScore))
  yearFilter since upto (sortByScore scored)

/-- Method `suggest.get_suggestions` of `refy/suggest.py`: accumulate the
points over all user papers, collate, and truncate to the best `N` rows
(`Suggestions.truncate`, modelled from the spec section 4.4:
keep the first `N` rows). -/
def getSuggestions (database : List Document) (retriever : String → List Nat)
    (userPapers : List UserPaper) (N : Nat) (since upto : Option Int) :
    List SuggRow :=
  (collateSuggestions database userPapers
    (getPoints database retriever userPapers) since upto).take N

/-! The older `referee/suggest.py` variant: data loading consistency check
and the constructor's attribute usage. -/

/-- The `ValueError` message raised by `referee`'s `suggest.load_data` when
the paper and abstract counts disagree; the two adjacent Python string
literals concatenate without a separator. -/
def referee_error_message (nPapers nAbstracts : Nat) : String :=
  "Error while loading data. Expected same number of papers and abstracts.Instead "
    ++ toString nPapers ++ " papers and " ++ toString nAbstracts
    ++ " abstracts were found"

/-- Method `suggest.load_data` of `referee/suggest.py`: load abstracts and
database, and fail when `self.n_papers != self.n_abstracts`. -/
def referee_load_data (database : List Document) (abstracts : List String) :
    Except String (List Document × List String) :=
  if database.length ≠ abstracts.length then
    .error (referee_error_message database.length abstracts.length)
  else
    .ok (database, abstracts)

/-- The `referee` library-query pipeline after construction: `load_data`
runs first, and only on success does the retrieval-driven accumulation of
points over the user papers run (the retriever is consulted only in the
success branch). -/
def referee_run_query (database : List Document) (abstracts : List String)
    (retriever : String → List Nat) (userPapers : List UserPaper) :
    Except String (List (String × Int)) :=
  match referee_load_data database abstracts with
  | .error e => .error e
  | .ok (db, _) => .ok (getPoints db retriever userPapers)

/-! Python attribute semantics of `referee`'s `suggest.__init__`:
reading an attribute that was never assigned raises `AttributeError`. -/

/-- A Python runtime error relevant to the constructor model. -/
inductive PyError where
  | attributeError (name : String)
deriving Repr, DecidableEq

/-- One step of the `referee` `suggest.__init__` body: an attribute
assignment `self.x = ...`, a bare attribute read `self.x`, or one of the
three pipeline calls the body makes. -/
inductive InitStep where
  | assignAttr (name : String)
  | readAttr (name : String)
  | callLoadData
  | callLoadModel
  | callGetSuggestions
deriving Repr, DecidableEq

/-- The instance state while `__init__` runs: which attributes are defined
on `self`, and whether data loading or any retrieval has happened. -/
structure InitState where
  attrs : List String
  dataLoaded : Bool
  retrieved : Bool
deriving Repr, DecidableEq

/-- Executes `__init__` steps in order; a read of an undefined attribute
stops execution with an `AttributeError`, returning the state reached. -/
def runInitSteps : List InitStep → InitState → InitState × Option PyError
  | [], st => (st, none)
  | step :: rest, st =>
    match step with
    | .assignAttr n => runInitSteps rest { st with attrs := n :: st.attrs }
    | .readAttr n =>
        if st.attrs.contains n then runInitSteps rest st
        else (st, some (.attributeError n))
    | .callLoadData =>
        runInitSteps rest
          { st with
            dataLoaded := true
            attrs := "abstracts" :: "database" :: "user_papers" :: st.attrs }
    | .callLoadModel => runInitSteps rest { st with attrs := "d2v" :: st.attrs }
    | .callGetSuggestions => runInitSteps rest { st with retrieved := true }

/-- The body of `suggest.__init__` in `referee/suggest.py`, lines 30-47:
`self.since = since`, then the bare read `self.savepath` (line 31, never
assigned), then the progress-bar assignments and the pipeline calls. -/
def referee_init_steps : List InitStep :=
  [.assignAttr "since", .readAttr "savepath",
   .assignAttr "progress", .assignAttr "n_completed", .assignAttr "task_id",
   .callLoadData, .callLoadModel, .callGetSuggestions]

/-- Constructing `referee`'s `suggest` class: the initial attribute set
holds only the class attribute `suggestions_per_paper`; the argument
values never influence which attribute names the body touches. -/
def referee_init (_userPapers : String) (_N : Nat) (_since : Option Int)
    (_savepath : Option String) : InitState × Option PyError :=
  runInitSteps referee_init_steps
    { attrs := ["suggestions_per_paper"], dataLoaded := false, retrieved := false }

/-! Concrete instances used by counterexamples and witnesses. -/

/-- A two-document corpus, stored in id order. -/
def docA : Document := ⟨1, "A", 2020, "absA", ["w. alpha"]⟩

/-- Second document of the concrete corpus. -/
def docB : Document := ⟨2, "B", 2021, "absB", ["x. beta"]⟩

/-- Concrete database with two documents. -/
def db2 : List Document := [docA, docB]

/-- A retriever that ranks document 2 first and document 1 second for
every abstract. -/
def retr21 : String → List Nat := fun _ => [2, 1]

/-- A retriever that returns only document 1. -/
def retr1 : String → List Nat := fun _ => [1]

/-- A retriever that returns no candidates at all. -/
def retrEmpty : String → List Nat := fun _ => []

/-- A one-document database. -/
def db1 : List Document := [docA]

/-- A one-paper user library whose title does not occur in the corpus. -/
def papers1 : List UserPaper := [⟨"U", "user abstract"⟩]

/-- A two-paper user library. -/
def papers2 : List UserPaper := [⟨"U", "user abstract"⟩, ⟨"V", "other abstract"⟩]

/-- A keyword extractor producing a single keyword. -/
def exK : String → List String := fun _ => ["w"]

/-- A keyword extractor whose output depends on the abstract: the first
paper yields `w` at rank 0, the second yields `w` at rank 1. -/
def exK2 : String → List String :=
  fun a => if a = "user abstract" then ["w"] else ["b", "w"]

/-! Lemmas about the dictionary operations. -/

theorem dkeys_nil : dkeys [] = [] := rfl

theorem dkeys_cons (k : String) (v : Int) (d : List (String × Int)) :
    dkeys ((k, v) :: d) = k :: dkeys d := rfl

theorem dinsert_cons_eq (k k' : String) (v v' : Int) (rest : List (String × Int))
    (hk : k' = k) : dinsert k v ((k', v') :: rest) = (k, v) :: rest := by
  simp [dinsert, hk]

theorem dinsert_cons_ne (k k' : String) (v v' : Int) (rest : List (String × Int))
    (hk : k' ≠ k) : dinsert k v ((k', v') :: rest) = (k', v') :: dinsert k v rest := by
  simp [dinsert, hk]

theorem dget_dinsert (k : String) (v : Int) (d : List (String × Int)) (t : String) :
    dget (dinsert k v d) t = if k = t then some v else dget d t := by
  induction d with
  | nil => simp [dinsert, dget]
  | cons p rest ih =>
    obtain ⟨k', v'⟩ := p
    by_cases hk : k' = k
    · subst hk
      by_cases ht : k' = t <;> simp [dinsert, dget, ht]
    · by_cases ht : k' = t
      · subst ht
        have hne : ¬ k = k' := fun h => hk h.symm
        simp [dinsert, dget, hk, hne]
      · simp [dinsert, dget, hk, ht, ih]

theorem mem_dkeys_dinsert (k : String) (v : Int) (d : List (String × Int)) (t : String) :
    t ∈ dkeys (dinsert k v d) ↔ t = k ∨ t ∈ dkeys d := by
  induction d with
  | nil => simp [dinsert, dkeys_cons, dkeys_nil]
  | cons p rest ih =>
    obtain ⟨k', v'⟩ := p
    by_cases hk : k' = k
    · rw [dinsert_cons_eq k k' v v' rest hk, dkeys_cons, dkeys_cons, hk]
      simp only [List.mem_cons]
      tauto
    · rw [dinsert_cons_ne k k' v v' rest hk, dkeys_cons, dkeys_cons]
      simp only [List.mem_cons, ih]
      tauto

theorem nodup_dkeys_dinsert (k : String) (v : Int) (d : List (String × Int))
    (h : (dkeys d).Nodup) : (dkeys (dinsert k v d)).Nodup := by
  induction d with
  | nil => simp [dinsert, dkeys_cons, dkeys_nil]
  | cons p rest ih =>
    obtain ⟨k', v'⟩ := p
    rw [dkeys_cons, List.nodup_cons] at h
    by_cases hk : k' = k
    · rw [dinsert_cons_eq k k' v v' rest hk, dkeys_cons, List.nodup_cons, ← hk]
      exact h
    · have hrest := ih h.2
      have hk' : ¬ k' ∈ dkeys (dinsert k v rest) := by
        rw [mem_dkeys_dinsert]
        rintro (rfl | hmem)
        · exact hk rfl
        · exact h.1 hmem
      rw [dinsert_cons_ne k k' v v' rest hk, dkeys_cons, List.nodup_cons]
      exact ⟨hk', hrest⟩

theorem dget_eq_none_iff (d : List (String × Int)) (t : String) :
    dget d t = none ↔ t ∉ dkeys d := by
  induction d with
  | nil => simp [dget, dkeys_nil]
  | cons p rest ih =>
    obtain ⟨k', v'⟩ := p
    rw [dkeys_cons]
    by_cases hk : k' = t
    · subst hk
      simp [dget]
    · simp only [dget, hk, if_false, ih, List.mem_cons]
      have := fun h : t = k' => hk h.symm
      tauto

theorem dget_mem (d : List (String × Int)) (t : String) (v : Int)
    (h : dget d t = some v) : (t, v) ∈ d := by
  induction d with
  | nil => simp [dget] at h
  | cons p rest ih =>
    obtain ⟨k', v'⟩ := p
    by_cases hk : k' = t
    · subst hk
      simp [dget] at h
      simp [h]
    · simp only [dget, hk, if_false] at h
      exact List.mem_cons_of_mem _ (ih h)

theorem mem_dkeys_of_dget (d : List (String × Int)) (t : String) (v : Int)
    (h : dget d t = some v) : t ∈ dkeys d := by
  have := dget_mem d t v h
  exact List.mem_map.2 ⟨(t, v), this, rfl⟩

theorem dget_isSome_of_mem_dkeys (d : List (String × Int)) (t : String)
    (h : t ∈ dkeys d) : ∃ v, dget d t = some v := by
  rcases hd : dget d t with _ | v
  · rw [dget_eq_none_iff] at hd
    exact absurd h hd
  · exact ⟨v, rfl⟩

/-! Lemmas about the per-paper weight dictionary. -/

theorem nodup_dkeys_buildWeightsFrom (ts : List String) :
    ∀ (n : Nat) (d : List (String × Int)), (dkeys d).Nodup →
      (dkeys (buildWeightsFrom n ts d)).Nodup := by
  induction ts with
  | nil => intro n d h; exact h
  | cons t rest ih =>
    intro n d h
    exact ih (n + 1) _ (nodup_dkeys_dinsert _ _ _ h)

theorem mem_dkeys_buildWeightsFrom (ts : List String) :
    ∀ (n : Nat) (d : List (String × Int)) (t : String),
      t ∈ dkeys (buildWeightsFrom n ts d) ↔ t ∈ ts ∨ t ∈ dkeys d := by
  induction ts with
  | nil => intro n d t; simp [buildWeightsFrom]
  | cons t' rest ih =>
    intro n d t
    rw [buildWeightsFrom, ih, mem_dkeys_dinsert]
    simp only [List.mem_cons]
    tauto

theorem dget_buildWeightsFrom_some (ts : List String) :
    ∀ (n : Nat) (d : List (String × Int)) (t : String) (v : Int),
      dget (buildWeightsFrom n ts d) t = some v →
      (∃ i, i < ts.length ∧ v = (suggestionsPerPaper : Int) - ((n : Int) + (i : Int)))
        ∨ dget d t = some v := by
  induction ts with
  | nil => intro n d t v h; exact Or.inr h
  | cons t' rest ih =>
    intro n d t v h
    rw [buildWeightsFrom] at h
    rcases ih (n + 1) _ t v h with ⟨i, hi, hv⟩ | hd
    · refine Or.inl ⟨i + 1, by simpa using hi, ?_⟩
      rw [hv]
      push_cast
      ring
    · rw [dget_dinsert] at hd
      by_cases ht : t' = t
      · rw [if_pos ht] at hd
        refine Or.inl ⟨0, by simp, ?_⟩
        cases hd
        push_cast
        ring
      · rw [if_neg ht] at hd
        exact Or.inr hd

theorem dget_buildWeightsFrom_of_not_mem (ts : List String) :
    ∀ (n : Nat) (d : List (String × Int)) (t : String), t ∉ ts →
      dget (buildWeightsFrom n ts d) t = dget d t := by
  induction ts with
  | nil => intro n d t _; rfl
  | cons t' rest ih =>
    intro n d t ht
    rw [List.mem_cons] at ht
    push_neg at ht
    rw [buildWeightsFrom, ih (n + 1) _ t ht.2, dget_dinsert,
      if_neg (fun h => ht.1 h.symm)]

theorem dget_buildWeightsFrom_head (t : String) (rest : List String) (n : Nat)
    (d : List (String × Int)) (ht : t ∉ rest) :
    dget (buildWeightsFrom n (t :: rest) d) t
      = some ((suggestionsPerPaper : Int) - (n : Int)) := by
  rw [buildWeightsFrom, dget_buildWeightsFrom_of_not_mem rest (n + 1) _ t ht,
    dget_dinsert, if_pos rfl]

/-! Lemmas about the selection step and `suggest_for_paper`. -/

theorem selectedDocs_length_le (database : List Document)
    (retriever : String → List Nat) (abstract : String)
    (hids : (database.map (fun d => d.id)).Nodup) :
    (selectedDocs database retriever abstract).length ≤ (retriever abstract).length := by
  set sel := selectedDocs database retriever abstract with hsel
  have hsub : (sel.map (fun d => d.id)).Sublist (database.map (fun d => d.id)) :=
    (List.filter_sublist database).map _
  have hnd : (sel.map (fun d => d.id)).Nodup := hids.sublist hsub
  have hsubset : (sel.map (fun d => d.id)) ⊆ retriever abstract := by
    intro i hi
    rcases List.mem_map.1 hi with ⟨dd, hd, rfl⟩
    have := (List.mem_filter.1 hd).2
    simpa using this
  calc sel.length = (sel.map (fun d => d.id)).length := (List.length_map _ _).symm
    _ ≤ (retriever abstract).length := (hnd.subperm hsubset).length_le

theorem nodup_dkeys_suggestForPaper (database : List Document)
    (retriever : String → List Nat) (abstract : String) :
    (dkeys (suggestForPaper database retriever abstract)).Nodup :=
  nodup_dkeys_buildWeightsFrom _ 0 [] (by simp [dkeys_nil])

theorem suggestForPaper_value_bounds (database : List Document)
    (retriever : String → List Nat) (abstract : String) (t : String) (v : Int)
    (hids : (database.map (fun d => d.id)).Nodup)
    (hretr : (retriever abstract).length ≤ suggestionsPerPaper)
    (h : dget (suggestForPaper database retriever abstract) t = some v) :
    1 ≤ v ∧ v ≤ (suggestionsPerPaper : Int) := by
  rcases dget_buildWeightsFrom_some _ 0 [] t v h with ⟨i, hi, hv⟩ | hd
  · have hlen : ((selectedDocs database retriever abstract).map (fun d => d.title)).length
        ≤ suggestionsPerPaper := by
      rw [List.length_map]
      exact le_trans (selectedDocs_length_le database retriever abstract hids) hretr
    have hi' : i < suggestionsPerPaper := lt_of_lt_of_le hi hlen
    have hi2 : (i : Int) ≤ (suggestionsPerPaper : Int) - 1 := by
      have : (i : Int) < (suggestionsPerPaper : Int) := by exact_mod_cast hi'
      omega
    constructor
    · rw [hv]; omega
    · rw [hv]
      have : (0 : Int) ≤ (i : Int) := Int.ofNat_nonneg i
      omega
  · simp [dget] at hd

theorem suggestForPaper_head (database : List Document)
    (retriever : String → List Nat) (abstract : String) (t : String)
    (htitles : (database.map (fun d => d.title)).Nodup)
    (h : ((selectedDocs database retriever abstract).map (fun d => d.title)).head?
      = some t) :
    dget (suggestForPaper database retriever abstract) t
      = some (suggestionsPerPaper : Int) := by
  have hnd : ((selectedDocs database retriever abstract).map (fun d => d.title)).Nodup :=
    htitles.sublist ((List.filter_sublist database).map _)
  rcases hl : (selectedDocs database retriever abstract).map (fun d => d.title) with
    _ | ⟨t', rest⟩
  · rw [hl] at h; simp at h
  · rw [hl] at h hnd
    simp only [List.head?_cons, Option.some.injEq] at h
    subst h
    rw [List.nodup_cons] at hnd
    rw [suggestForPaper, hl]
    simpa using dget_buildWeightsFrom_head t' rest 0 [] hnd.1

/-! Lemmas about the points accumulation of `get_suggestions`. -/

theorem dget_accumStep (pts : List (String × Int)) (k : String) (w : Int)
    (t : String) :
    dget (accumStep pts k w) t
      = if k = t then some (dgetD pts k 0 + w) else dget pts t := by
  rcases h : dget pts k with _ | v
  · rw [accumStep, h, dget_dinsert]
    simp [dgetD, h]
  · rw [accumStep, h, dget_dinsert]
    simp [dgetD, h]

theorem mem_dkeys_accumStep (pts : List (String × Int)) (k : String) (w : Int)
    (t : String) :
    t ∈ dkeys (accumStep pts k w) ↔ t = k ∨ t ∈ dkeys pts := by
  rcases h : dget pts k with _ | v <;>
    simp [accumStep, h, mem_dkeys_dinsert]

theorem dgetD_accumulate (sugg : List (String × Int)) :
    ∀ (pts : List (String × Int)) (t : String), (dkeys sugg).Nodup →
      dgetD (accumulate pts sugg) t 0 = dgetD pts t 0 + dgetD sugg t 0 := by
  induction sugg with
  | nil => intro pts t _; simp [accumulate, dgetD, dget]
  | cons kw rest ih =>
    intro pts t hnd
    obtain ⟨k, w⟩ := kw
    rw [dkeys_cons, List.nodup_cons] at hnd
    have hacc : accumulate pts ((k, w) :: rest) = accumulate (accumStep pts k w) rest := rfl
    rw [hacc, ih _ t hnd.2]
    by_cases ht : k = t
    · subst ht
      have hrest : dget rest k = none := (dget_eq_none_iff rest k).2 hnd.1
      rw [show dgetD (accumStep pts k w) k 0 = dgetD pts k 0 + w from by
            rw [dgetD, dget_accumStep, if_pos rfl]; rfl]
      rw [show dgetD ((k, w) :: rest) k 0 = w from by simp [dgetD, dget]]
      rw [show dgetD rest k 0 = 0 from by simp [dgetD, hrest]]
      ring
    · rw [show dgetD (accumStep pts k w) t 0 = dgetD pts t 0 from by
            rw [dgetD, dget_accumStep, if_neg ht]; rfl]
      rw [show dgetD ((k, w) :: rest) t 0 = dgetD rest t 0 from by
            simp [dgetD, dget, ht]]

theorem mem_dkeys_accumulate (sugg : List (String × Int)) :
    ∀ (pts : List (String × Int)) (t : String),
      t ∈ dkeys (accumulate pts sugg) ↔ t ∈ dkeys pts ∨ t ∈ dkeys sugg := by
  induction sugg with
  | nil => intro pts t; simp [accumulate, dkeys_nil]
  | cons kw rest ih =>
    intro pts t
    obtain ⟨k, w⟩ := kw
    have hacc : accumulate pts ((k, w) :: rest) = accumulate (accumStep pts k w) rest := rfl
    rw [hacc, ih, mem_dkeys_accumStep, dkeys_cons]
    simp only [List.mem_cons]
    tauto

theorem dgetD_getPoints (database : List Document) (retriever : String → List Nat)
    (userPapers : List UserPaper) (t : String) :
    dgetD (getPoints database retriever userPapers) t 0
      = (userPapers.map
          (fun p => dgetD (suggestForPaper database retriever p.abstract) t 0)).sum := by
  suffices h : ∀ (pts : List (String × Int)),
      dgetD (userPapers.foldl
        (fun pts p => accumulate pts (suggestForPaper database retriever p.abstract))
        pts) t 0
      = dgetD pts t 0 + (userPapers.map
          (fun p => dgetD (suggestForPaper database retriever p.abstract) t 0)).sum by
    have := h []
    rw [getPoints, this]
    simp [dgetD, dget]
  induction userPapers with
  | nil => intro pts; simp
  | cons p ps ih =>
    intro pts
    rw [List.foldl_cons, ih, dgetD_accumulate _ _ _ (nodup_dkeys_suggestForPaper _ _ _)]
    simp only [List.map_cons, List.sum_cons]
    ring

theorem mem_dkeys_getPoints (database : List Document) (retriever : String → List Nat)
    (userPapers : List UserPaper) (t : String) :
    t ∈ dkeys (getPoints database retriever userPapers)
      ↔ ∃ p ∈ userPapers, t ∈ dkeys (suggestForPaper database retriever p.abstract) := by
  suffices h : ∀ (pts : List (String × Int)),
      t ∈ dkeys (userPapers.foldl
        (fun pts p => accumulate pts (suggestForPaper database retriever p.abstract)) pts)
      ↔ t ∈ dkeys pts
        ∨ ∃ p ∈ userPapers, t ∈ dkeys (suggestForPaper database retriever p.abstract) by
    rw [getPoints, h []]
    simp [dkeys_nil]
  induction userPapers with
  | nil => intro pts; simp
  | cons p ps ih =>
    intro pts
    rw [List.foldl_cons, ih, mem_dkeys_accumulate]
    simp only [List.mem_cons]
    constructor
    · rintro ((h | h) | ⟨q, hq, hmem⟩)
      · exact Or.inl h
      · exact Or.inr ⟨p, Or.inl rfl, h⟩
      · exact Or.inr ⟨q, Or.inr hq, hmem⟩
    · rintro (h | ⟨q, rfl | hq, hmem⟩)
      · exact Or.inl (Or.inl h)
      · exact Or.inl (Or.inr hmem)
      · exact Or.inr ⟨q, hq, hmem⟩

/-! Lemmas about the collate / sort / filter / truncate stages. -/

theorem insertRow_perm (r : SuggRow) (l : List SuggRow) :
    (insertRow r l).Perm (r :: l) := by
  induction l with
  | nil => simp [insertRow]
  | cons x xs ih =>
    rw [insertRow]
    by_cases h : x.score < r.score
    · rw [if_pos h]
    · rw [if_neg h]
      exact (ih.cons x).trans (List.Perm.swap r x xs)

theorem sortByScore_perm (l : List SuggRow) : (sortByScore l).Perm l := by
  induction l with
  | nil => simp [sortByScore]
  | cons x xs ih =>
    have : sortByScore (x :: xs) = insertRow x (sortByScore xs) := rfl
    rw [this]
    exact (insertRow_perm x (sortByScore xs)).trans (ih.cons x)

theorem mem_dedupByTitle (l : List Document) :
    ∀ (seen : List String) (d : Document), d ∈ dedupByTitle seen l → d ∈ l := by
  induction l with
  | nil => intro seen d h; simp [dedupByTitle] at h
  | cons x xs ih =>
    intro seen d h
    rw [dedupByTitle] at h
    by_cases hx : seen.contains x.title
    · rw [if_pos hx] at h
      exact List.mem_cons_of_mem _ (ih seen d h)
    · rw [if_neg hx] at h
      rcases List.mem_cons.1 h with rfl | h'
      · exact List.mem_cons_self _ _
      · exact List.mem_cons_of_mem _ (ih _ d h')

theorem mem_collateSuggestions (database : List Document) (userPapers : List UserPaper)
    (points : List (String × Int)) (since upto : Option Int) (r : SuggRow)
    (hr : r ∈ collateSuggestions database userPapers points since upto) :
    (∃ d ∈ removeOverlap
        (dedupByTitle [] (database.filter (fun d => (dkeys points).contains d.title)))
        userPapers,
      r = SuggRow.mk d (((dgetD points d.title 0 : Int) : ℚ)
        / ((suggestionsPerPaper : ℚ) * (userPapers.length : ℚ))))
    ∧ ((since.all fun s => decide (s ≤ r.doc.year)) &&
        (upto.all fun t => decide (r.doc.year ≤ t))) = true := by
  rw [collateSuggestions] at hr
  have h1 := List.mem_filter.1 hr
  have h2 := (sortByScore_perm _).mem_iff.1 h1.1
  rcases List.mem_map.1 h2 with ⟨d, hd, rfl⟩
  exact ⟨⟨d, hd, rfl⟩, h1.2⟩

theorem mem_getSuggestions (database : List Document) (retriever : String → List Nat)
    (userPapers : List UserPaper) (N : Nat) (since upto : Option Int) (r : SuggRow)
    (hr : r ∈ getSuggestions database retriever userPapers N since upto) :
    r ∈ collateSuggestions database userPapers
        (getPoints database retriever userPapers) since upto := by
  rw [getSuggestions] at hr
  exact List.take_subset N _ hr

/-! Bounds on accumulated points. -/

theorem contribution_nonneg (database : List Document) (retriever : String → List Nat)
    (abstract : String) (t : String)
    (hids : (database.map (fun d => d.id)).Nodup)
    (hretr : (retriever abstract).length ≤ suggestionsPerPaper) :
    0 ≤ dgetD (suggestForPaper database retriever abstract) t 0
      ∧ dgetD (suggestForPaper database retriever abstract) t 0
        ≤ (suggestionsPerPaper : Int) := by
  rcases h : dget (suggestForPaper database retriever abstract) t with _ | v
  · simp [dgetD, h, suggestionsPerPaper]
  · have := suggestForPaper_value_bounds database retriever abstract t v hids hretr h
    rw [dgetD, h]
    exact ⟨le_trans (by norm_num) this.1, this.2⟩

theorem getPoints_bounds (database : List Document) (retriever : String → List Nat)
    (userPapers : List UserPaper) (t : String)
    (hids : (database.map (fun d => d.id)).Nodup)
    (hretr : ∀ a, (retriever a).length ≤ suggestionsPerPaper)
    (ht : t ∈ dkeys (getPoints database retriever userPapers)) :
    1 ≤ dgetD (getPoints database retriever userPapers) t 0
      ∧ dgetD (getPoints database retriever userPapers) t 0
          ≤ (suggestionsPerPaper : Int) * (userPapers.length : Int)
      ∧ 1 ≤ userPapers.length := by
  set f : UserPaper → Int :=
    fun p => dgetD (suggestForPaper database retriever p.abstract) t 0 with hf
  have hsum := dgetD_getPoints database retriever userPapers t
  have hall : ∀ x ∈ userPapers.map f, 0 ≤ x ∧ x ≤ (suggestionsPerPaper : Int) := by
    intro x hx
    rcases List.mem_map.1 hx with ⟨p, _, rfl⟩
    exact contribution_nonneg database retriever p.abstract t hids (hretr p.abstract)
  rcases (mem_dkeys_getPoints database retriever userPapers t).1 ht with ⟨p, hp, hmem⟩
  rcases dget_isSome_of_mem_dkeys _ _ hmem with ⟨v, hv⟩
  have hv1 : 1 ≤ v :=
    (suggestForPaper_value_bounds database retriever p.abstract t v hids
      (hretr p.abstract) hv).1
  have hfp : f p = v := by rw [hf]; simp [dgetD, hv]
  have hfp_mem : f p ∈ userPapers.map f := List.mem_map_of_mem f hp
  have hlow : 1 ≤ (userPapers.map f).sum := by
    have := List.single_le_sum (fun x hx => (hall x hx).1) (f p) hfp_mem
    omega
  have hup : (userPapers.map f).sum
      ≤ (suggestionsPerPaper : Int) * (userPapers.length : Int) := by
    have := List.sum_le_card_nsmul (userPapers.map f) (suggestionsPerPaper : Int)
      (fun x hx => (hall x hx).2)
    rw [List.length_map] at this
    calc (userPapers.map f).sum ≤ userPapers.length • (suggestionsPerPaper : Int) := this
      _ = (userPapers.length : Int) * (suggestionsPerPaper : Int) := by
          rw [nsmul_eq_mul]
      _ = (suggestionsPerPaper : Int) * (userPapers.length : Int) := by ring
  refine ⟨?_, ?_, ?_⟩
  · rw [hsum]; exact hlow
  · rw [hsum]; exact hup
  · have : userPapers ≠ [] := fun h => by simp [h] at hp
    exact List.length_pos.2 this

theorem score_in_unit_interval (P : Int) (L : Nat) (hP1 : 1 ≤ P)
    (hPU : P ≤ (suggestionsPerPaper : Int) * (L : Int)) (hL : 1 ≤ L) :
    0 < ((P : Int) : ℚ) / ((suggestionsPerPaper : ℚ) * (L : ℚ))
      ∧ ((P : Int) : ℚ) / ((suggestionsPerPaper : ℚ) * (L : ℚ)) ≤ 1 := by
  have hK : (0 : ℚ) < (suggestionsPerPaper : ℚ) := by
    rw [suggestionsPerPaper]; norm_num
  have hLq : (0 : ℚ) < (L : ℚ) := by exact_mod_cast hL
  have hden : (0 : ℚ) < (suggestionsPerPaper : ℚ) * (L : ℚ) := mul_pos hK hLq
  have hPq : (0 : ℚ) < ((P : Int) : ℚ) := by exact_mod_cast lt_of_lt_of_le one_pos hP1
  have hPUq : ((P : Int) : ℚ) ≤ (suggestionsPerPaper : ℚ) * (L : ℚ) := by
    exact_mod_cast hPU
  exact ⟨div_pos hPq hden, (div_le_one hden).2 hPUq⟩

/-! Claim theorems. -/

/-- C4: for every N ≥ 0 the final RecommendationSet of a library query has
length min(N, number of rows surviving overlap and year filtering); N = 0
yields an empty set, and N at least the surviving row count yields all
surviving rows without error. -/
theorem c4_output_length (database : List Document) (retriever : String → List Nat)
    (userPapers : List UserPaper) (N : Nat) (since upto : Option Int) :
    (getSuggestions database retriever userPapers N since upto).length
      = min N (collateSuggestions database userPapers
          (getPoints database retriever userPapers) since upto).length
    ∧ getSuggestions database retriever userPapers 0 since upto = []
    ∧ ((collateSuggestions database userPapers
          (getPoints database retriever userPapers) since upto).length ≤ N →
        getSuggestions database retriever userPapers N since upto
          = collateSuggestions database userPapers
              (getPoints database retriever userPapers) since upto) :=
  ⟨by rw [getSuggestions, List.length_take],
   by rw [getSuggestions, List.take_zero],
   fun h => by rw [getSuggestions, List.take_of_length_le h]⟩

set_option maxRecDepth 10000 in
/-- Witness for C4 at a concrete query where N exceeds the surviving row
count, so the output is all surviving rows. -/
theorem c4_output_length_witness :
    getSuggestions db1 retr1 papers1 5 none none
      = collateSuggestions db1 papers1 (getPoints db1 retr1 papers1) none none :=
  (c4_output_length db1 retr1 papers1 5 none none).2.2 (by with_unfolding_all decide)

/-- C5: no document whose title matches a title of the user's input
library appears in the final RecommendationSet of a library query. -/
theorem c5_no_overlap (database : List Document) (retriever : String → List Nat)
    (userPapers : List UserPaper) (N : Nat) (since upto : Option Int) (r : SuggRow)
    (hr : r ∈ getSuggestions database retriever userPapers N since upto) :
    r.doc.title ∉ userPapers.map (fun p => p.title) := by
  have h := mem_collateSuggestions database userPapers
    (getPoints database retriever userPapers) since upto r
    (mem_getSuggestions database retriever userPapers N since upto r hr)
  rcases h.1 with ⟨d, hd, rfl⟩
  have hmem := (List.mem_filter.1 hd).2
  simpa using hmem

set_option maxRecDepth 10000 in
/-- Witness for C5 at a concrete query with a non-empty output. -/
theorem c5_no_overlap_witness :
    (SuggRow.mk docA 1).doc.title ∉ papers1.map (fun p => p.title) :=
  c5_no_overlap db1 retr1 papers1 20 none none (SuggRow.mk docA 1)
    (by with_unfolding_all decide)

/-- C6: every row of the output RecommendationSet satisfies the optional
inclusive year bounds: since ≤ year when since is given and year ≤ to when
to is given; an omitted bound imposes no constraint. -/
theorem c6_year_bounds (database : List Document) (retriever : String → List Nat)
    (userPapers : List UserPaper) (N : Nat) (since upto : Option Int) (r : SuggRow)
    (hr : r ∈ getSuggestions database retriever userPapers N since upto) :
    (∀ s, since = some s → s ≤ r.doc.year)
    ∧ (∀ t, upto = some t → r.doc.year ≤ t) := by
  have h := (mem_collateSuggestions database userPapers
    (getPoints database retriever userPapers) since upto r
    (mem_getSuggestions database retriever userPapers N since upto r hr)).2
  rw [Bool.and_eq_true] at h
  constructor
  · intro s hs
    rw [hs] at h
    simpa using h.1
  · intro t ht
    rw [ht] at h
    simpa using h.2

set_option maxRecDepth 10000 in
/-- Witness for C6 at a concrete query with both bounds supplied. -/
theorem c6_year_bounds_witness :
    (∀ s, (some (2000 : Int)) = some s → s ≤ (SuggRow.mk docA 1).doc.year)
    ∧ (∀ t, (some (2021 : Int)) = some t → (SuggRow.mk docA 1).doc.year ≤ t) :=
  c6_year_bounds db1 retr1 papers1 20 (some 2000) (some 2021) (SuggRow.mk docA 1)
    (by with_unfolding_all decide)

/-- C7: for fixed retriever outputs, permuting the order in which the
user's papers are processed does not change the accumulated points of any
title in the final ScoreMap. -/
theorem c7_order_invariance (database : List Document) (retriever : String → List Nat)
    (userPapers userPapers' : List UserPaper) (hperm : userPapers.Perm userPapers')
    (t : String) :
    dgetD (getPoints database retriever userPapers) t 0
      = dgetD (getPoints database retriever userPapers') t 0 := by
  rw [dgetD_getPoints, dgetD_getPoints]
  exact (hperm.map _).sum_eq

/-- Witness for C7 at a concrete two-paper library and its reversal. -/
theorem c7_order_invariance_witness :
    dgetD (getPoints db2 retr21 papers2) "A" 0
      = dgetD (getPoints db2 retr21 papers2.reverse) "A" 0 :=
  c7_order_invariance db2 retr21 papers2 papers2.reverse
    (papers2.reverse_perm).symm "A"

/-- C10: constructing the referee variant's suggest class stops with an
AttributeError on the unassigned attribute savepath for every argument
tuple, before any data is loaded and before any retrieval occurs. -/
theorem c10_savepath_attribute_error (userPapers : String) (N : Nat)
    (since : Option Int) (savepath : Option String) :
    (referee_init userPapers N since savepath).2
        = some (PyError.attributeError "savepath")
    ∧ (referee_init userPapers N since savepath).1.dataLoaded = false
    ∧ (referee_init userPapers N since savepath).1.retrieved = false :=
  ⟨rfl, rfl, rfl⟩

/-- C8: when the loaded corpus's paper count and abstract count disagree,
the referee library query fails during data loading with an error naming
both counts, and the result does not depend on the retriever (no retrieval
call can influence it). -/
theorem c8_count_mismatch_fatal (database : List Document) (abstracts : List String)
    (h : database.length ≠ abstracts.length) (retriever : String → List Nat)
    (userPapers : List UserPaper) :
    referee_run_query database abstracts retriever userPapers
      = .error (referee_error_message database.length abstracts.length)
    ∧ ∃ mid tail, referee_error_message database.length abstracts.length
        = "Error while loading data. Expected same number of papers and abstracts.Instead "
          ++ toString database.length ++ mid ++ toString abstracts.length ++ tail := by
  have hld : referee_load_data database abstracts
      = Except.error (referee_error_message database.length abstracts.length) := by
    rw [referee_load_data, if_pos h]
  constructor
  · rw [referee_run_query, hld]
  · exact ⟨" papers and ", " abstracts were found", rfl⟩

/-- Witness for C8 at a concrete corpus of one paper and zero abstracts. -/
theorem c8_count_mismatch_fatal_witness :
    referee_run_query db1 [] retr1 papers1
      = .error (referee_error_message db1.length ([] : List String).length)
    ∧ ∃ mid tail, referee_error_message db1.length ([] : List String).length
        = "Error while loading data. Expected same number of papers and abstracts.Instead "
          ++ toString db1.length ++ mid ++ toString ([] : List String).length ++ tail :=
  c8_count_mismatch_fatal db1 [] (by decide) retr1 papers1

/-- C9: a retrieval that yields no candidates for a user paper is never
fatal: its suggestion dict is empty and merging it leaves the points
unchanged; and a retriever that is empty for every query yields an empty
RecommendationSet rather than an error. -/
theorem c9_empty_retrieval_not_fatal (database : List Document)
    (retriever : String → List Nat) (abstract : String) (pts : List (String × Int))
    (userPapers : List UserPaper) (N : Nat) (since upto : Option Int)
    (h : retriever abstract = []) :
    suggestForPaper database retriever abstract = []
    ∧ accumulate pts (suggestForPaper database retriever abstract) = pts
    ∧ getSuggestions database (fun _ => []) userPapers N since upto = [] := by
  have hsel : selectedDocs database retriever abstract = [] := by
    rw [selectedDocs, h]
    simp
  have h1 : suggestForPaper database retriever abstract = [] := by
    rw [suggestForPaper, hsel]
    rfl
  have hsfp : ∀ a, suggestForPaper database (fun _ => ([] : List Nat)) a = [] := by
    intro a
    rw [suggestForPaper, selectedDocs]
    have : database.filter (fun d => (([] : List Nat)).contains d.id) = [] := by simp
    rw [this]
    rfl
  have hpts : getPoints database (fun _ => []) userPapers = [] := by
    rw [getPoints]
    induction userPapers with
    | nil => rfl
    | cons p ps ih =>
      rw [List.foldl_cons, hsfp p.abstract]
      exact ih
  refine ⟨h1, by rw [h1]; rfl, ?_⟩
  rw [getSuggestions, hpts, collateSuggestions]
  have h0 : database.filter
      (fun d => (dkeys ([] : List (String × Int))).contains d.title) = [] := by
    simp [dkeys_nil]
  rw [h0]
  show ([] : List SuggRow).take N = []
  exact List.take_nil

/-- Witness for C9 at a concrete database and an always-empty retriever. -/
theorem c9_empty_retrieval_not_fatal_witness :
    suggestForPaper db1 retrEmpty "x" = []
    ∧ accumulate [] (suggestForPaper db1 retrEmpty "x") = []
    ∧ getSuggestions db1 (fun _ => []) papers1 5 none none = [] :=
  c9_empty_retrieval_not_fatal db1 retrEmpty "x" [] papers1 5 none none rfl

/-- C1 (code bug): in `suggest_for_paper` the weights follow the database
row order of the selected papers, not the retrieval rank: with the corpus
in order [A (id 1), B (id 2)] and the retriever ranking id 2 first, the
rank-0 candidate B receives weight 99 while A (retrieval rank 1) receives
the maximal weight 100 = suggestions_per_paper. -/
theorem c1_weights_follow_database_order :
    suggestForPaper db2 retr21 "x" = [("A", 100), ("B", 99)]
    ∧ retr21 "x" = [2, 1]
    ∧ docB.id = 2
    ∧ dget (suggestForPaper db2 retr21 "x") "B" = some 99 :=
  ⟨by decide, rfl, rfl, by decide⟩

/-- C3 counterexample: a keyword extracted at rank 0 from a single
document accumulates the constant 1, not its rank weight 10 - 0 = 10, so
the claim that every occurrence contributes its rank weight fails. -/
theorem c3_first_occurrence_counterexample :
    getKeywords exK papers1 = [("w", 1)]
    ∧ dget (getKeywords exK papers1) "w" ≠ some ((10 : Int) - ((0 : Nat) : Int)) :=
  ⟨by decide, by decide⟩

/-- C3 (amended): a repeat occurrence of a keyword at rank m adds the rank
weight 10 - m to its accumulated profile weight, but a first occurrence
contributes the constant 1 instead of its rank weight; concretely, a
keyword first seen at rank 0 and repeated at rank 1 ends with weight
1 + (10 - 1) = 10. -/
theorem c3_keyword_weight_update (kws : List (String × Int)) (m : Nat) (kw : String) :
    dget (keywordStep kws m kw) kw
      = some (((dget kws kw).map (fun v => v + ((10 : Int) - (m : Int)))).getD 1)
    ∧ dget (getKeywords exK2 papers2) "w" = some (1 + ((10 : Int) - (1 : Int))) := by
  constructor
  · rcases h : dget kws kw with _ | v
    · simp [keywordStep, h, dget_dinsert]
    · simp [keywordStep, h, dget_dinsert]
  · decide

/-! Helper for the score-normalization claim. -/

theorem mem_getSuggestions_score (database : List Document)
    (retriever : String → List Nat) (userPapers : List UserPaper) (N : Nat)
    (since upto : Option Int) (r : SuggRow)
    (hr : r ∈ getSuggestions database retriever userPapers N since upto) :
    ∃ d, r = SuggRow.mk d
        (((dgetD (getPoints database retriever userPapers) d.title 0 : Int) : ℚ)
          / ((suggestionsPerPaper : ℚ) * (userPapers.length : ℚ)))
      ∧ d.title ∈ dkeys (getPoints database retriever userPapers) := by
  have h := mem_collateSuggestions database userPapers
    (getPoints database retriever userPapers) since upto r
    (mem_getSuggestions database retriever userPapers N since upto r hr)
  rcases h.1 with ⟨d, hd, rfl⟩
  refine ⟨d, rfl, ?_⟩
  have hd2 := (List.mem_filter.1 hd).1
  have hd3 := mem_dedupByTitle _ [] d hd2
  have hd4 := (List.mem_filter.1 hd3).2
  simpa using hd4

set_option maxRecDepth 10000 in
/-- C2 counterexample: with corpus [A (id 1), B (id 2)] and a retriever
that ranks id 2 at position 0 for the single user paper, document B is
surfaced at rank 0 by every query yet its final score is 99/100, not 1
(the maximal weight goes to A, the first row in database order). -/
theorem c2_rank_zero_counterexample :
    retr21 "user abstract" = [2, 1]
    ∧ docB.id = 2
    ∧ (getSuggestions db2 retr21 papers1 10 none none).map
        (fun r => (r.doc.title, r.score)) = [("A", 1), ("B", (99 : ℚ)/100)]
    ∧ ((99 : ℚ)/100) ≠ 1 :=
  ⟨rfl, rfl, by with_unfolding_all decide, by with_unfolding_all decide⟩

/-- C2 (amended): in a non-empty final RecommendationSet every row's score
equals its accumulated points divided by suggestions_per_paper times the
number of user papers and lies in (0, 1]; a document selected first (in
database order) for every query accumulates the maximal points and, when
it appears in the output, attains score exactly 1. -/
theorem c2_score_normalization (database : List Document)
    (retriever : String → List Nat) (userPapers : List UserPaper) (N : Nat)
    (since upto : Option Int)
    (hids : (database.map (fun d => d.id)).Nodup)
    (htitles : (database.map (fun d => d.title)).Nodup)
    (hretr : ∀ a, (retriever a).length ≤ suggestionsPerPaper) :
    (∀ r ∈ getSuggestions database retriever userPapers N since upto,
        r.score
          = ((dgetD (getPoints database retriever userPapers) r.doc.title 0 : Int) : ℚ)
            / ((suggestionsPerPaper : ℚ) * (userPapers.length : ℚ))
        ∧ 0 < r.score ∧ r.score ≤ 1)
    ∧ (∀ t, (∀ p ∈ userPapers,
          ((selectedDocs database retriever p.abstract).map (fun d => d.title)).head?
            = some t) →
        dgetD (getPoints database retriever userPapers) t 0
          = (suggestionsPerPaper : Int) * (userPapers.length : Int))
    ∧ (∀ r ∈ getSuggestions database retriever userPapers N since upto,
        (∀ p ∈ userPapers,
          ((selectedDocs database retriever p.abstract).map (fun d => d.title)).head?
            = some r.doc.title) →
        r.score = 1) := by
  have part1 : ∀ r ∈ getSuggestions database retriever userPapers N since upto,
      r.score
        = ((dgetD (getPoints database retriever userPapers) r.doc.title 0 : Int) : ℚ)
          / ((suggestionsPerPaper : ℚ) * (userPapers.length : ℚ))
      ∧ 0 < r.score ∧ r.score ≤ 1 := by
    intro r hr
    rcases mem_getSuggestions_score database retriever userPapers N since upto r hr with
      ⟨d, rfl, hkey⟩
    have hb := getPoints_bounds database retriever userPapers d.title hids hretr hkey
    have hs := score_in_unit_interval
      (dgetD (getPoints database retriever userPapers) d.title 0) userPapers.length
      hb.1 hb.2.1 hb.2.2
    exact ⟨rfl, hs.1, hs.2⟩
  have part2 : ∀ t, (∀ p ∈ userPapers,
        ((selectedDocs database retriever p.abstract).map (fun d => d.title)).head?
          = some t) →
      dgetD (getPoints database retriever userPapers) t 0
        = (suggestionsPerPaper : Int) * (userPapers.length : Int) := by
    intro t hfirst
    rw [dgetD_getPoints]
    have hconst : ∀ x ∈ userPapers.map
        (fun p => dgetD (suggestForPaper database retriever p.abstract) t 0),
        x = (suggestionsPerPaper : Int) := by
      intro x hx
      rcases List.mem_map.1 hx with ⟨p, hp, rfl⟩
      rw [dgetD, suggestForPaper_head database retriever p.abstract t htitles
        (hfirst p hp)]
      rfl
    rw [List.sum_eq_card_nsmul _ _ hconst, List.length_map, nsmul_eq_mul]
    ring
  refine ⟨part1, part2, ?_⟩
  intro r hr hfirst
  have h1 := part1 r hr
  have h2 := part2 r.doc.title hfirst
  rcases mem_getSuggestions_score database retriever userPapers N since upto r hr with
    ⟨d, rfl, hkey⟩
  have hb := getPoints_bounds database retriever userPapers d.title hids hretr hkey
  have hL : (1 : Nat) ≤ userPapers.length := hb.2.2
  have hKL : ((suggestionsPerPaper : ℚ) * (userPapers.length : ℚ)) ≠ 0 := by
    have hLq : (0 : ℚ) < (userPapers.length : ℚ) := by exact_mod_cast hL
    have hK : (0 : ℚ) < (suggestionsPerPaper : ℚ) := by
      rw [suggestionsPerPaper]; norm_num
    exact ne_of_gt (mul_pos hK hLq)
  show (((dgetD (getPoints database retriever userPapers) d.title 0 : Int) : ℚ)
      / ((suggestionsPerPaper : ℚ) * (userPapers.length : ℚ))) = 1
  have h2' : dgetD (getPoints database retriever userPapers) d.title 0
      = (suggestionsPerPaper : Int) * (userPapers.length : Int) := h2
  rw [h2']
  rw [div_eq_one_iff_eq hKL]
  push_cast
  ring

set_option maxRecDepth 10000 in
/-- Witness for C2 at a concrete one-document, one-paper query whose
single output row has score 1. -/
theorem c2_score_normalization_witness :
    0 < (SuggRow.mk docA 1).score ∧ (SuggRow.mk docA 1).score ≤ 1 := by
  have h := (c2_score_normalization db1 retr1 papers1 20 none none
    (by decide) (by decide) (by intro a; norm_num [retr1, suggestionsPerPaper])).1
    (SuggRow.mk docA 1) (by with_unfolding_all decide)
  exact ⟨h.2.1, h.2.2⟩
